import Mathlib

/-!
Shallow embedding of the crawler/verifier in `scripts/verify-app.py` of the
privacysuite repository, together with theorems settling the frozen claims
about it.

Conventions of the embedding:
* Browser, network and filesystem behaviour is abstracted into a `World`:
  for each URL the world says whether navigation throws and, if not, what the
  rendered page looks like (captured document-response status, lowered body
  text source, console messages, anchors, element counts).  Everything the
  script computes from those observations is translated literally.
* Python strings become `String`, Python lists become `List`, the Python
  `set` of visited URLs becomes a duplicate-free `List String` used only
  through membership and insertion (`setAdd`).
* `urljoin` is modelled for the href shapes the script feeds it (absolute
  paths, network-path references, absolute URLs); dot-segment normalisation
  is not modelled — no claim and no concrete input below depends on it.
* Wall-clock times (load time, screenshot timestamps) are data supplied by
  the world, since the script only stores them.
* The filesystem side effects of screenshots are not modelled; the helper
  `_take_screenshot` is modelled as the path string it returns.
* `test_button_functionality` mutates no crawl state and collects no
  findings in the source, so it does not appear in the state transitions.
-/

namespace PrivacySuite

set_option maxRecDepth 100000

/-- `BASE_URL` constant of the script. -/
def BASE_URL : String := "http://localhost:3001"

/-- `SCREENSHOT_DIR` constant of the script. -/
def SCREENSHOT_DIR : String := "/tmp/privacy-suite-verification"

/-- `MAX_PAGES` constant of the script (the safety limit). -/
def MAX_PAGES : Nat := 100

/-- `STATIC_ROUTES` constant of the script. -/
def STATIC_ROUTES : List String :=
  ["/privacy",
   "/privacy/data-inventory",
   "/privacy/data-inventory/new",
   "/privacy/data-inventory/processing-activities",
   "/privacy/dsar",
   "/privacy/dsar/settings",
   "/privacy/assessments",
   "/privacy/assessments/new",
   "/privacy/assessments/templates",
   "/privacy/incidents",
   "/privacy/incidents/new",
   "/privacy/vendors",
   "/privacy/vendors/new",
   "/privacy/vendors/questionnaires"]

/-- `PUBLIC_ROUTES` constant of the script. -/
def PUBLIC_ROUTES : List String := ["/sign-in", "/dsar/demo"]

/-- The `error_indicators` list from `test_page`. -/
def error_indicators : List String :=
  ["404", "not found", "error occurred", "something went wrong",
   "unhandled runtime error", "application error"]

/-! ### String helpers (Python `in`, `startswith`, the dynamic-route regex) -/

/-- Whether the char list `n` is a prefix of the char list `h`
(auxiliary for the Python substring test). -/
def listHasPrefix : List Char → List Char → Bool
  | [], _ => true
  | _ :: _, [] => false
  | a :: as, b :: bs => a == b && listHasPrefix as bs

/-- Whether the char list `n` occurs as a contiguous sublist of `h`. -/
def listSub (n : List Char) : List Char → Bool
  | [] => n.isEmpty
  | c :: rest => listHasPrefix n (c :: rest) || listSub n rest

/-- Python's `needle in hay` substring test. -/
def strIn (needle hay : String) : Bool := listSub needle.data hay.data

/-- Scans for a `']'` occurring before any newline: the `.*\]` part of the
regex `/\[.*\]` (`.` does not match a newline in Python's `re`). -/
def dynClose : List Char → Bool
  | [] => false
  | c :: rest => if c = ']' then true else if c = '\n' then false else dynClose rest

/-- Whether a match of `/\[.*\]` starts exactly at the head of the list. -/
def dynAt : List Char → Bool
  | c1 :: c2 :: rest => c1 == '/' && c2 == '[' && dynClose rest
  | _ => false

/-- Whether a match of `/\[.*\]` starts at any position of the list. -/
def hasDynList : List Char → Bool
  | [] => false
  | c :: rest => dynAt (c :: rest) || hasDynList rest

/-- Python's `re.search(r'/\[.*\]', s) is not None`: the dynamic-route
(bracketed template segment) test of `test_page`. -/
def hasDynSeg (s : String) : Bool := hasDynList s.data

/-- Python's `s.startswith(p)` (argument order: subject first). -/
def pyStartsWith (s p : String) : Bool := listHasPrefix p.data s.data

/-- Python's `x or default` on the captured document-response status:
`None` and `0` are falsy, so both fall back to the default. -/
def pyOr (x : Option Nat) (default : Nat) : Nat :=
  match x with
  | none => default
  | some 0 => default
  | some n => n

/-- The path component of a `http://host...` URL, as `urlparse(url).path`
computes it for the URLs this script builds (cut at `?` or `#`). -/
def urlPath (url : String) : String :=
  let cs := if pyStartsWith url "http://" then url.data.drop 7
            else if pyStartsWith url "https://" then url.data.drop 8 else url.data
  String.mk ((cs.dropWhile (fun c => c != '/')).takeWhile (fun c => c != '?' && c != '#'))

/-- The screenshot file path `_take_screenshot` returns:
`SCREENSHOT_DIR/{prefix}_{path with / replaced by _, or "root"}_{time}.png`. -/
def screenshotFile (url prefix_ : String) (t : Nat) : String :=
  let path_part := String.mk ((urlPath url).data.map (fun c => if c = '/' then '_' else c))
  let path_part := if path_part = "" then "root" else path_part
  SCREENSHOT_DIR ++ "/" ++ prefix_ ++ "_" ++ path_part ++ "_" ++ toString t ++ ".png"

/-- `urljoin(BASE_URL, href)` for an `href` starting with `/`: a
network-path reference `//host/...` replaces the authority, any other
absolute path is appended to the base origin. -/
def urljoin_base (href : String) : String :=
  if pyStartsWith href "//" then "http:" ++ href else BASE_URL ++ href

/-- `urljoin(BASE_URL, href)` for the unconstrained hrefs harvested by
`test_dynamic_routes` (absolute URLs kept, paths joined to the base). -/
def urljoin_any (href : String) : String :=
  if strIn "://" href then href
  else if pyStartsWith href "//" then "http:" ++ href
  else if pyStartsWith href "/" then BASE_URL ++ href
  else BASE_URL ++ "/" ++ href

/-- The skip test on a raw href in `test_page`'s link discovery:
falsy href, or one starting with `#`, `javascript:`, `mailto:`, `tel:`. -/
def hrefSkipped (href : String) : Bool :=
  href == "" || pyStartsWith href "#" || pyStartsWith href "javascript:" ||
  pyStartsWith href "mailto:" || pyStartsWith href "tel:"

/-- The URL-normalisation in `test_page`'s link discovery: absolute paths
are joined to `BASE_URL`, hrefs starting with `BASE_URL` are kept, and
everything else (external links) is dropped. -/
def resolveHref (href : String) : Option String :=
  if pyStartsWith href "/" then some (urljoin_base href)
  else if pyStartsWith href BASE_URL then some href
  else none

/-! ### Data model -/

/-- What the world shows for one rendered page (navigation succeeded):
the document-response status captured by the `on_response` listener, the
body inner text (absent when there is no `body` element), the count of
`[data-nextjs-dialog]` overlay elements, console messages as
(type, text) pairs, the `href` attributes of the `a[href]` anchors, the
button and form counts, and the wall-clock data the script records. -/
structure PageData where
  responseStatus : Option Nat
  bodyText : Option String
  overlayCount : Nat
  consoleLogs : List (String × String)
  hrefs : List String
  buttonsCount : Nat
  formsCount : Nat
  loadTimeMs : Nat
  shotTime : Nat
  deriving DecidableEq

/-- Outcome of navigating to a URL: the navigation throws (with the
exception text, any document-response status that may have been observed
by the listener before the exception, the elapsed time, and the screenshot
timestamp), or the page loads with its `PageData`. -/
inductive PageLoad where
  | navError (msg : String) (observedStatus : Option Nat) (loadTimeMs : Nat) (shotTime : Nat)
  | loaded (d : PageData)
  deriving DecidableEq

/-- A world assigns a navigation outcome to every URL. -/
def World : Type := String → PageLoad

/-- The `PageResult` dataclass, with its field defaults. -/
structure PageResult where
  url : String
  status : String := "pending"
  http_status : Option Nat := none
  load_time_ms : Nat := 0
  console_errors : List String := []
  console_warnings : List String := []
  links_found : List String := []
  buttons_found : Nat := 0
  forms_found : Nat := 0
  error_message : Option String := none
  screenshot_path : Option String := none
  deriving DecidableEq

instance : Inhabited PageResult := ⟨{ url := "" }⟩

/-- The counters of the `VerificationReport` dataclass that
`_compile_report` fills in. -/
structure ReportCounts where
  total_pages : Nat := 0
  pages_passed : Nat := 0
  pages_with_warnings : Nat := 0
  pages_failed : Nat := 0
  total_console_errors : Nat := 0
  deriving DecidableEq

/-- The mutable crawl state of the verifier object: `visited_urls`
(a set, kept here as a duplicate-free list), `pending_urls`, and the
accumulated `report.results`. -/
structure CrawlState where
  visited : List String
  pending : List String
  results : List PageResult
  deriving DecidableEq

/-- The observations `authenticate` makes: whether any browser step
throws, visibility of the `#dev-email` field and of the
`button:has-text("Dev Sign In")` button, and `page.url` after submitting. -/
structure AuthWorld where
  throws : Bool
  emailVisible : Bool
  buttonVisible : Bool
  urlAfter : String
  deriving DecidableEq

/-- The five per-category anchor lists `test_dynamic_routes` reads from the
list pages (`a[href*="/privacy/<category>/"]` locators). -/
structure DynWorld where
  dataInventory : List String
  dsar : List String
  assessments : List String
  incidents : List String
  vendors : List String
  deriving DecidableEq

/-- Everything a full `run` consumes from the outside. -/
structure RunWorld where
  pages : World
  auth : AuthWorld
  dyn : DynWorld

/-! ### Operations translated from the script -/

/-- Python-set insertion into the visited list. -/
def setAdd (l : List String) (a : String) : List String :=
  if l.contains a then l else l ++ [a]

/-- Console messages of one type, as `test_page` collects them. -/
def consoleOfType (t : String) (logs : List (String × String)) : List String :=
  (logs.filter (fun l => l.1 == t)).map (fun l => l.2)

/-- `page_text`: the lowered body inner text, `""` when there is no body
(lowering modelled characterwise, which matches `str.lower` on ASCII). -/
def pageText (d : PageData) : String :=
  match d.bodyText with
  | some t => String.mk (t.data.map Char.toLower)
  | none => ""

/-- `has_error` from the indicator scan:
`any(indicator in page_text for indicator in error_indicators)`. -/
def hasIndicator (d : PageData) : Bool :=
  error_indicators.any (fun ind => strIn ind (pageText d))

/-- Accumulator of the link-discovery loop: `result.links_found` so far and
the current `pending_urls`. -/
structure DiscoverAcc where
  links : List String
  pending : List String
  deriving DecidableEq

/-- One iteration of the link-discovery loop in `test_page`: skip trivial
hrefs, normalise, record the link, and enqueue it when it is neither
visited nor pending and the href has no bracketed template segment. -/
def discoverStep (visited : List String) (acc : DiscoverAcc) (href : String) : DiscoverAcc :=
  if hrefSkipped href then acc
  else
    match resolveHref href with
    | none => acc
    | some full_url =>
      let links := acc.links ++ [full_url]
      if !visited.contains full_url && !acc.pending.contains full_url &&
          !hasDynSeg href then
        { links := links, pending := acc.pending ++ [full_url] }
      else
        { links := links, pending := acc.pending }

/-- The whole link-discovery loop of `test_page`. -/
def discoverLinks (visited pending : List String) (hrefs : List String) : DiscoverAcc :=
  hrefs.foldl (discoverStep visited) { links := [], pending := pending }

/-- `test_page`: navigate, classify, inspect.  Returns the `PageResult`
and the updated pending queue (`test_page` appends to `self.pending_urls`
during link discovery).  On a navigation exception only status, error
message, load time and the screenshot path are set, mirroring the
`except` block. -/
def test_page (w : World) (visited pending : List String) (url : String) :
    PageResult × List String :=
  match w url with
  | .navError msg _obs t st =>
    ({ url := url, status := "error", error_message := some msg,
       load_time_ms := t, screenshot_path := some (screenshotFile url "error" st) },
     pending)
  | .loaded d =>
    let http_status := pyOr d.responseStatus 200
    let overlay := d.overlayCount != 0
    let has_error := hasIndicator d || overlay
    let errMsg : Option String :=
      if overlay then some "Next.js error overlay detected" else none
    let console_errors := consoleOfType "error" d.consoleLogs
    let console_warnings := consoleOfType "warning" d.consoleLogs
    let acc := discoverLinks visited pending d.hrefs
    let status :=
      if has_error || decide (400 ≤ http_status) then "error"
      else if !console_errors.isEmpty then "warning" else "success"
    let shot : Option String :=
      if status == "error" then some (screenshotFile url "error" d.shotTime)
      else if status == "warning" then some (screenshotFile url "warning" d.shotTime)
      else none
    ({ url := url, status := status, http_status := some http_status,
       load_time_ms := d.loadTimeMs,
       console_errors := console_errors, console_warnings := console_warnings,
       links_found := acc.links, buttons_found := d.buttonsCount,
       forms_found := d.formsCount, error_message := errMsg,
       screenshot_path := shot }, acc.pending)

/-- `authenticate`: success iff no step throws, the dev-email field and the
dev sign-in button are visible, and the final URL contains `/privacy` or
does not contain `/sign-in`; every fall-through returns `False`. -/
def authenticate (a : AuthWorld) : Bool :=
  if a.throws then false
  else if a.emailVisible then
    if a.buttonVisible then
      if strIn "/privacy" a.urlAfter || !strIn "/sign-in" a.urlAfter then true
      else false
    else false
  else false

/-- One iteration of the public-routes loop in `run`: test the route if it
is not yet visited, then mark it visited and append its result. -/
def publicStep (w : World) (s : CrawlState) (route : String) : CrawlState :=
  let url := BASE_URL ++ route
  if s.visited.contains url then s
  else
    let pr := test_page w s.visited s.pending url
    { visited := setAdd s.visited url, pending := pr.2, results := s.results ++ [pr.1] }

/-- The "Testing public routes" loop of `run`. -/
def publicPhase (w : World) (s : CrawlState) : CrawlState :=
  PUBLIC_ROUTES.foldl (publicStep w) s

/-- The "Add static routes to pending" loop of `run`: append each static
route unless it is already visited (the pending queue is not consulted). -/
def seedStatic (s : CrawlState) : CrawlState :=
  STATIC_ROUTES.foldl
    (fun s route =>
      let url := BASE_URL ++ route
      if s.visited.contains url then s
      else { s with pending := s.pending ++ [url] }) s

/-- One category block of `test_dynamic_routes`: take the first two
anchors, keep truthy hrefs containing none of the excluded substrings,
and join them to the base URL. -/
def dynPick (hrefs : List String) (excluded : List String) : List String :=
  ((hrefs.take 2).filter
    (fun h => h != "" && excluded.all (fun e => !strIn e h))).map urljoin_any

/-- The `dynamic_routes` list collected by `test_dynamic_routes`. -/
def dynCandidates (dw : DynWorld) : List String :=
  dynPick dw.dataInventory ["/new", "/processing"] ++
  dynPick dw.dsar ["/settings"] ++
  dynPick dw.assessments ["/new", "/templates"] ++
  dynPick dw.incidents ["/new"] ++
  dynPick dw.vendors ["/new", "/questionnaires"]

/-- The "Add unique routes" loop of `test_dynamic_routes`: enqueue each
candidate that is neither visited nor already pending. -/
def test_dynamic_routes (dw : DynWorld) (s : CrawlState) : CrawlState :=
  (dynCandidates dw).foldl
    (fun s route =>
      if !s.visited.contains route && !s.pending.contains route then
        { s with pending := s.pending ++ [route] }
      else s) s

/-- Skipping of dequeued URLs in the main loop: a popped URL that is
already visited, or that does not start with `BASE_URL`, is dropped
without being tested (and without touching `page_count` or `visited`). -/
def dropSkipped (v : List String) : List String → List String
  | [] => []
  | url :: rest =>
    if v.contains url || !pyStartsWith url BASE_URL then dropSkipped v rest
    else url :: rest

/-- The main `while self.pending_urls and page_count < MAX_PAGES` loop.
`budget` is `MAX_PAGES - page_count`; skipped URLs do not change
`page_count`, so consecutive skips are collapsed by `dropSkipped` (the
while condition is re-checked before every pop, but neither conjunct
changes on a skip). -/
def crawlLoop (w : World) : Nat → CrawlState → CrawlState
  | 0, s => s
  | budget + 1, s =>
    match dropSkipped s.visited s.pending with
    | [] => { s with pending := [] }
    | url :: rest =>
      let pr := test_page w s.visited rest url
      crawlLoop w budget
        { visited := setAdd s.visited url, pending := pr.2,
          results := s.results ++ [pr.1] }

/-- The initial crawl state of a fresh verifier object. -/
def initState : CrawlState := { visited := [], pending := [], results := [] }

/-- `run`: test the public routes, authenticate (aborting with the partial
report on failure), seed the static routes, harvest dynamic routes, and
run the capped main loop.  `test_button_functionality` afterwards changes
no crawl state and is omitted. -/
def run (rw : RunWorld) : CrawlState :=
  let s1 := publicPhase rw.pages initState
  if authenticate rw.auth then
    crawlLoop rw.pages MAX_PAGES (test_dynamic_routes rw.dyn (seedStatic s1))
  else s1

/-- One iteration of `_compile_report`: bump the total, then exactly one of
passed / warnings / failed according to the status, then the console-error
total. -/
def compileStep (rep : ReportCounts) (r : PageResult) : ReportCounts :=
  let rep := { rep with total_pages := rep.total_pages + 1 }
  let rep :=
    if r.status = "success" then { rep with pages_passed := rep.pages_passed + 1 }
    else if r.status = "warning" then
      { rep with pages_with_warnings := rep.pages_with_warnings + 1 }
    else { rep with pages_failed := rep.pages_failed + 1 }
  { rep with total_console_errors := rep.total_console_errors + r.console_errors.length }

/-- `_compile_report` over the results list. -/
def compileReport (results : List PageResult) : ReportCounts :=
  results.foldl compileStep {}

/-! ### Spec-side predicates (for stating the claims) -/

/-- The anchors of the page the world shows at `url` (empty when
navigation throws). -/
def pageHrefs (w : World) (url : String) : List String :=
  match w url with
  | .navError _ _ _ _ => []
  | .loaded d => d.hrefs

/-- The error condition of the classification policy: navigation threw, or
an error-indicator phrase is in the rendered body text, or the error
overlay marker is present, or the (defaulted) HTTP status is ≥ 400. -/
def errorCondB (w : World) (url : String) : Bool :=
  match w url with
  | .navError _ _ _ _ => true
  | .loaded d =>
    (hasIndicator d || d.overlayCount != 0) || decide (400 ≤ pyOr d.responseStatus 200)

/-- The warning condition: navigation succeeded and at least one console
message of type `error` was logged. -/
def warnCondB (w : World) (url : String) : Bool :=
  match w url with
  | .navError _ _ _ _ => false
  | .loaded d => !(consoleOfType "error" d.consoleLogs).isEmpty

/-- Modelled from the spec: membership of a URL in the base origin.  A URL
is in the origin of `BASE_URL` exactly when it is `BASE_URL` itself or
extends it at a path, query or fragment boundary; a URL that merely has
`BASE_URL` as a string prefix followed by more authority characters (for
example a longer port such as `localhost:30012`) is a different origin. -/
def sameOrigin (u : String) : Bool :=
  u == BASE_URL || pyStartsWith u (BASE_URL ++ "/") ||
  pyStartsWith u (BASE_URL ++ "?") || pyStartsWith u (BASE_URL ++ "#")

/-- Modelled from the spec: "the resulting URL is no longer the sign-in
page".  A URL is (still) the sign-in page when its path component is
`/sign-in`. -/
def onSignInPage (u : String) : Bool := urlPath u == "/sign-in"

/-! ### Concrete worlds for witnesses and counterexamples -/

/-- A page with a 200 response, empty body, no overlay, no console
messages, no anchors. -/
def emptyPage : PageData :=
  { responseStatus := some 200, bodyText := some "", overlayCount := 0,
    consoleLogs := [], hrefs := [], buttonsCount := 0, formsCount := 0,
    loadTimeMs := 0, shotTime := 0 }

/-- `emptyPage` with the given anchors. -/
def pageWithHrefs (hs : List String) : PageData := { emptyPage with hrefs := hs }

/-- A world where only the sign-in page carries anchors. -/
def linksWorld (hs : List String) : World := fun u =>
  if u = BASE_URL ++ "/sign-in" then .loaded (pageWithHrefs hs) else .loaded emptyPage

/-- A world where every page carries the given anchors. -/
def flatWorld (hs : List String) : World := fun _ => .loaded (pageWithHrefs hs)

/-- A world where every navigation throws with a fixed timeout message,
after a 500 document response was observed. -/
def crashWorld : World := fun _ => .navError "Timeout 30000ms exceeded." (some 500) 45 7

/-- A world where pages load but no document response is captured. -/
def noStatusWorld : World := fun _ => .loaded { emptyPage with responseStatus := none }

/-- Auth observations of a successful dev sign-in landing on the
dashboard. -/
def authOk : AuthWorld :=
  { throws := false, emailVisible := true, buttonVisible := true,
    urlAfter := "http://localhost:3001/privacy" }

/-- Auth observations where submitting leaves the browser on the sign-in
page, with the intended destination in the query string. -/
def authStuck : AuthWorld :=
  { throws := false, emailVisible := true, buttonVisible := true,
    urlAfter := "http://localhost:3001/sign-in?next=/privacy" }

/-- No dynamic detail links on any list page. -/
def dynNone : DynWorld :=
  { dataInventory := [], dsar := [], assessments := [], incidents := [], vendors := [] }

/-- A run against an application with no links at all. -/
def trivialRun : RunWorld :=
  { pages := fun _ => .loaded emptyPage, auth := authOk, dyn := dynNone }

/-- 101 distinct in-origin hrefs (pairwise distinct by length), enough to
overflow the page cap. -/
def chainHrefs : List String :=
  (List.range 101).map (fun i => "/c" ++ String.mk (List.replicate i 'a'))

/-- The URL the `i`-th chain href resolves to. -/
def chainUrl (i : Nat) : String :=
  BASE_URL ++ ("/c" ++ String.mk (List.replicate i 'a'))

/-- The chain hrefs joined to the base URL. -/
def chainUrls : List String := (List.range 101).map chainUrl

/-- The static seed routes joined to the base URL. -/
def staticUrls : List String := STATIC_ROUTES.map (fun r => BASE_URL ++ r)

/-- Run world for the cap counterexample: the sign-in page links to 101
distinct pages, which themselves have no links. -/
def capRun : RunWorld := { pages := linksWorld chainHrefs, auth := authOk, dyn := dynNone }

/-- A URL outside the base origin (port 30012) that nevertheless has
`BASE_URL` (port 3001) as a string prefix. -/
def evilUrl : String := "http://localhost:30012/evil"

/-- Run world for the origin counterexample: the sign-in page links to
`evilUrl`. -/
def evilRun : RunWorld := { pages := linksWorld [evilUrl], auth := authOk, dyn := dynNone }

/-- World for the duplicate-pending counterexample: the sign-in page links
to `/privacy`, which is also a static seed route. -/
def dupWorld : World := linksWorld ["/privacy"]

/-! ### Helper lemmas -/

theorem not_mem_of_contains_false {l : List String} {a : String}
    (h : l.contains a = false) : a ∉ l := by
  intro hm; simp_all

theorem contains_false_of_not_mem {l : List String} {a : String}
    (h : a ∉ l) : l.contains a = false := by
  simp_all

theorem setAdd_of_not_mem {l : List String} {a : String} (h : a ∉ l) :
    setAdd l a = l ++ [a] := by
  simp [setAdd, contains_false_of_not_mem h, h]

/-- `test_page` reports exactly the URL it was asked to test. -/
theorem test_page_url (w : World) (v p : List String) (url : String) :
    (test_page w v p url).1.url = url := by
  cases hw : w url <;> simp [test_page, hw]

theorem dynAt_of_head_ne (c : Char) (l : List Char) (h : c ≠ '/') :
    dynAt (c :: l) = false := by
  cases l with
  | nil => rfl
  | cons c2 r => simp [dynAt, h]

theorem dynAt_of_second_ne (c c2 : Char) (l : List Char) (h : c2 ≠ '[') :
    dynAt (c :: c2 :: l) = false := by
  simp [dynAt, h]

/-- Prepending characters that contain no `'['` and do not end in `'/'`
does not change whether the dynamic-route regex matches. -/
theorem hasDynList_append :
    ∀ (p : List Char), (∀ c ∈ p, c ≠ '[') → p.getLast? ≠ some '/' →
      ∀ l, hasDynList (p ++ l) = hasDynList l := by
  intro p
  induction p with
  | nil => intro _ _ l; rfl
  | cons c p ih =>
    intro hb hl l
    cases p with
    | nil =>
      have hc : c ≠ '/' := by
        intro hcEq; exact hl (by simp [hcEq])
      show (dynAt (c :: l) || hasDynList l) = hasDynList l
      rw [dynAt_of_head_ne c l hc]
      simp
    | cons c2 p2 =>
      have h2 : c2 ≠ '[' := hb c2 (by simp)
      have hb' : ∀ x ∈ c2 :: p2, x ≠ '[' := fun x hx => hb x (List.mem_cons_of_mem _ hx)
      have hl' : (c2 :: p2).getLast? ≠ some '/' := by
        rw [← List.getLast?_cons_cons (a := c)]; exact hl
      show (dynAt (c :: c2 :: (p2 ++ l)) || hasDynList ((c2 :: p2) ++ l)) = hasDynList l
      rw [dynAt_of_second_ne c c2 _ h2, ih hb' hl' l]
      simp

/-- Case analysis of the URL-normalisation in link discovery. -/
theorem resolveHref_cases (href u : String) (h : resolveHref href = some u) :
    (pyStartsWith href "/" = true ∧ u = urljoin_base href) ∨
      (pyStartsWith href "/" = false ∧ pyStartsWith href BASE_URL = true ∧ u = href) := by
  unfold resolveHref at h
  split at h
  · exact Or.inl ⟨by assumption, by injection h with h2; exact h2.symm⟩
  · split at h
    · refine Or.inr ⟨by simp_all, by assumption, ?_⟩
      injection h with h2; exact h2.symm
    · exact absurd h (by simp)

/-- Joining an href to the base URL preserves (non-)matching of the
dynamic-route regex: `BASE_URL` and `http:` contain no bracket and do not
end in a slash. -/
theorem hasDynSeg_resolve (href u : String) (h : resolveHref href = some u) :
    hasDynSeg u = hasDynSeg href := by
  rcases resolveHref_cases href u h with ⟨_, rfl⟩ | ⟨_, _, rfl⟩
  · unfold urljoin_base
    split
    · exact hasDynList_append ("http:".data) (by decide) (by decide) href.data
    · exact hasDynList_append (BASE_URL.data) (by decide) (by decide) href.data
  · rfl

/-- One discovery step only appends to the pending queue. -/
theorem discoverStep_pending_mono (v : List String) (acc : DiscoverAcc) (href u : String)
    (h : u ∈ acc.pending) : u ∈ (discoverStep v acc href).pending := by
  unfold discoverStep
  split
  · exact h
  · split
    · exact h
    · split
      · simpa using Or.inl h
      · exact h

/-- What one discovery step can put into the pending queue: only the
resolved form of its href, and only when the href has no dynamic segment
and the URL is neither visited nor already pending. -/
theorem discoverStep_pending_mem (v : List String) (acc : DiscoverAcc) (href u : String)
    (h : u ∈ (discoverStep v acc href).pending) :
    u ∈ acc.pending ∨
      (resolveHref href = some u ∧ hasDynSeg href = false ∧ u ∉ v ∧ u ∉ acc.pending) := by
  unfold discoverStep at h
  split at h
  · exact Or.inl h
  · split at h
    · exact Or.inl h
    · rename_i full_url hres
      split at h
      · rename_i hcond
        simp only [Bool.and_eq_true, Bool.not_eq_true'] at hcond
        obtain ⟨⟨hv, hp⟩, hdyn⟩ := hcond
        rcases List.mem_append.mp h with h1 | h1
        · exact Or.inl h1
        · have hu : u = full_url := by simpa using h1
          subst hu
          exact Or.inr ⟨hres, hdyn, not_mem_of_contains_false hv,
            not_mem_of_contains_false hp⟩
      · exact Or.inl h

/-- What the whole discovery loop can put into the pending queue. -/
theorem discoverFold_pending_mem (v : List String) :
    ∀ (hs : List String) (acc : DiscoverAcc) (u : String),
      u ∈ (hs.foldl (discoverStep v) acc).pending →
      u ∈ acc.pending ∨
        ∃ href ∈ hs, resolveHref href = some u ∧ hasDynSeg href = false ∧
          u ∉ v ∧ u ∉ acc.pending := by
  intro hs
  induction hs with
  | nil => intro acc u h; exact Or.inl h
  | cons a hs ih =>
    intro acc u h
    rcases ih (discoverStep v acc a) u h with h1 | ⟨href, hmem, hres, hdyn, hv, hpend⟩
    · rcases discoverStep_pending_mem v acc a u h1 with h2 | ⟨hres, hdyn, hv, hpend⟩
      · exact Or.inl h2
      · exact Or.inr ⟨a, by simp, hres, hdyn, hv, hpend⟩
    · exact Or.inr ⟨href, by simp [hmem], hres, hdyn, hv,
        fun hc => hpend (discoverStep_pending_mono v acc a u hc)⟩

/-- What `test_page` can put into the pending queue: beyond what was
already pending, only resolved non-dynamic hrefs of the page, and only
URLs that are neither visited nor already pending. -/
theorem test_page_pending_mem (w : World) (v p : List String) (url u : String)
    (h : u ∈ (test_page w v p url).2) :
    u ∈ p ∨
      ∃ href ∈ pageHrefs w url, resolveHref href = some u ∧ hasDynSeg href = false ∧
        u ∉ v ∧ u ∉ p := by
  cases hw : w url with
  | navError m o t st =>
    exact Or.inl (by simpa [test_page, hw] using h)
  | loaded d =>
    have h2 : (test_page w v p url).2 = (discoverLinks v p d.hrefs).pending := by
      simp [test_page, hw]
    rw [h2] at h
    have h3 := discoverFold_pending_mem v d.hrefs { links := [], pending := p } u
      (by simpa [discoverLinks] using h)
    simpa [pageHrefs, hw] using h3

/-- A URL surviving the skip scan was neither visited nor off-prefix. -/
theorem dropSkipped_head (v : List String) :
    ∀ (p : List String) (url : String) (rest : List String),
      dropSkipped v p = url :: rest →
      url ∉ v ∧ pyStartsWith url BASE_URL = true := by
  intro p
  induction p with
  | nil => intro url rest h; cases h
  | cons a p ih =>
    intro url rest h
    unfold dropSkipped at h
    split at h
    · exact ih url rest h
    · rename_i hc
      simp only [Bool.or_eq_true, Bool.not_eq_true', not_or, Bool.not_eq_true,
        Bool.not_eq_false] at hc
      injection h with h1 h2
      subst h1
      exact ⟨not_mem_of_contains_false hc.1, hc.2⟩

/-- The main loop adds at most `budget` results. -/
theorem crawlLoop_results_length (w : World) :
    ∀ (budget : Nat) (s : CrawlState),
      (crawlLoop w budget s).results.length ≤ s.results.length + budget := by
  intro budget
  induction budget with
  | zero => intro s; simp [crawlLoop]
  | succ b ih =>
    intro s
    rw [crawlLoop]
    cases hd : dropSkipped s.visited s.pending with
    | nil => simp
    | cons url rest =>
      calc (crawlLoop w b _).results.length
          ≤ (s.results ++ [(test_page w s.visited rest url).1]).length + b := ih _
        _ ≤ s.results.length + (b + 1) := by simp; omega

/-- The invariant tying results to the visited set: every reported URL has
the base prefix, no URL is reported twice, and every reported URL has been
marked visited. -/
def InvPR (s : CrawlState) : Prop :=
  (∀ r ∈ s.results, pyStartsWith r.url BASE_URL = true) ∧
  (s.results.map PageResult.url).Nodup ∧
  (∀ r ∈ s.results, r.url ∈ s.visited)

theorem InvPR_of_eq {s t : CrawlState} (hr : t.results = s.results)
    (hv : t.visited = s.visited) (h : InvPR s) : InvPR t := by
  unfold InvPR at *
  rw [hr, hv]
  exact h

/-- The main loop preserves the reporting invariant. -/
theorem crawlLoop_inv (w : World) :
    ∀ (budget : Nat) (s : CrawlState), InvPR s → InvPR (crawlLoop w budget s) := by
  intro budget
  induction budget with
  | zero => intro s h; exact h
  | succ b ih =>
    intro s h
    rw [crawlLoop]
    cases hd : dropSkipped s.visited s.pending with
    | nil => exact InvPR_of_eq rfl rfl h
    | cons url rest =>
      apply ih
      obtain ⟨hpre, hnd, hsub⟩ := h
      obtain ⟨hvz, hstart⟩ := dropSkipped_head s.visited s.pending url rest hd
      refine ⟨?_, ?_, ?_⟩
      · intro r hr
        rcases List.mem_append.mp hr with h1 | h1
        · exact hpre r h1
        · have he : r = (test_page w s.visited rest url).1 := by simpa using h1
          rw [he, test_page_url]
          exact hstart
      · rw [List.map_append, List.nodup_append]
        refine ⟨hnd, by simp, ?_⟩
        intro x hx
        simp only [List.map_cons, List.map_nil, test_page_url, List.mem_singleton]
        intro hx2
        subst hx2
        rcases List.mem_map.mp hx with ⟨r, hr, hru⟩
        exact hvz (hru ▸ hsub r hr)
      · intro r hr
        rw [setAdd_of_not_mem hvz]
        rcases List.mem_append.mp hr with h1 | h1
        · exact List.mem_append_left _ (hsub r h1)
        · have he : r = (test_page w s.visited rest url).1 := by simpa using h1
          rw [he, test_page_url]
          exact List.mem_append_right _ (by simp)

/-- Results and visited set are untouched by a fold whose step only edits
the pending queue. -/
theorem foldl_state_preserve {α : Type} (f : CrawlState → α → CrawlState)
    (hf : ∀ s a, (f s a).results = s.results ∧ (f s a).visited = s.visited) :
    ∀ (l : List α) (s : CrawlState),
      (l.foldl f s).results = s.results ∧ (l.foldl f s).visited = s.visited := by
  intro l
  induction l with
  | nil => intro s; exact ⟨rfl, rfl⟩
  | cons a l ih =>
    intro s
    have h1 := hf s a
    have h2 := ih (f s a)
    exact ⟨h2.1.trans h1.1, h2.2.trans h1.2⟩

theorem seedStatic_state (s : CrawlState) :
    (seedStatic s).results = s.results ∧ (seedStatic s).visited = s.visited := by
  unfold seedStatic
  exact foldl_state_preserve _ (fun s a => by dsimp only; split <;> exact ⟨rfl, rfl⟩) _ s

theorem dynRoutes_state (dw : DynWorld) (s : CrawlState) :
    (test_dynamic_routes dw s).results = s.results ∧
      (test_dynamic_routes dw s).visited = s.visited := by
  unfold test_dynamic_routes
  exact foldl_state_preserve _ (fun s a => by split <;> exact ⟨rfl, rfl⟩) _ s

/-- The first public seed URL. -/
def pubUrl1 : String := BASE_URL ++ "/sign-in"

/-- The second public seed URL. -/
def pubUrl2 : String := BASE_URL ++ "/dsar/demo"

/-- Closed form of the public-routes phase from a fresh state. -/
theorem publicPhase_eq (w : World) :
    publicPhase w initState =
      { visited := [pubUrl1, pubUrl2],
        pending := (test_page w [pubUrl1] (test_page w [] [] pubUrl1).2 pubUrl2).2,
        results := [(test_page w [] [] pubUrl1).1,
                    (test_page w [pubUrl1] (test_page w [] [] pubUrl1).2 pubUrl2).1] } := by
  have h2 : ¬(BASE_URL ++ "/dsar/demo" = BASE_URL ++ "/sign-in") := by decide
  simp [publicPhase, PUBLIC_ROUTES, publicStep, initState, setAdd, h2, pubUrl1, pubUrl2]

theorem publicPhase_inv (w : World) : InvPR (publicPhase w initState) := by
  rw [publicPhase_eq]
  refine ⟨?_, ?_, ?_⟩
  · intro r hr
    rcases List.mem_cons.mp hr with h1 | h1
    · rw [h1, test_page_url]; decide
    · rw [List.mem_singleton.mp h1, test_page_url]; decide
  · simp only [List.map_cons, List.map_nil, test_page_url]
    refine List.nodup_cons.mpr ⟨by decide, List.nodup_singleton _⟩
  · intro r hr
    rcases List.mem_cons.mp hr with h1 | h1
    · rw [h1, test_page_url]; simp
    · rw [List.mem_singleton.mp h1, test_page_url]; simp

theorem publicPhase_results_length (w : World) :
    (publicPhase w initState).results.length = 2 := by
  rw [publicPhase_eq]
  rfl

/-- The reporting invariant holds at the end of every run. -/
theorem run_inv (rw : RunWorld) : InvPR (run rw) := by
  unfold run
  split
  · apply crawlLoop_inv
    have hseed := seedStatic_state (publicPhase rw.pages initState)
    have hdyn := dynRoutes_state rw.dyn (seedStatic (publicPhase rw.pages initState))
    exact InvPR_of_eq (hdyn.1.trans hseed.1) (hdyn.2.trans hseed.2)
      (publicPhase_inv rw.pages)
  · exact publicPhase_inv rw.pages

/-- A run reports at most the two public routes plus `MAX_PAGES` pages. -/
theorem run_results_length (rw : RunWorld) :
    (run rw).results.length ≤ PUBLIC_ROUTES.length + MAX_PAGES := by
  unfold run
  split
  · have hseed := seedStatic_state (publicPhase rw.pages initState)
    have hdyn := dynRoutes_state rw.dyn (seedStatic (publicPhase rw.pages initState))
    calc (crawlLoop rw.pages MAX_PAGES _).results.length
        ≤ (test_dynamic_routes rw.dyn
            (seedStatic (publicPhase rw.pages initState))).results.length + MAX_PAGES :=
          crawlLoop_results_length rw.pages MAX_PAGES _
      _ = (publicPhase rw.pages initState).results.length + MAX_PAGES := by
          rw [hdyn.1, hseed.1]
      _ = PUBLIC_ROUTES.length + MAX_PAGES := by rw [publicPhase_results_length]; rfl
  · rw [publicPhase_results_length]
    decide

/-- The tally invariant of `_compile_report`, preserved step by step. -/
theorem compileFold_partition :
    ∀ (l : List PageResult) (rep : ReportCounts),
      rep.total_pages = rep.pages_passed + rep.pages_with_warnings + rep.pages_failed →
      (l.foldl compileStep rep).total_pages =
        (l.foldl compileStep rep).pages_passed +
        (l.foldl compileStep rep).pages_with_warnings +
        (l.foldl compileStep rep).pages_failed := by
  intro l
  induction l with
  | nil => intro rep h; exact h
  | cons r l ih =>
    intro rep h
    apply ih
    simp only [compileStep]
    by_cases h1 : r.status = "success"
    · simp [h1]; omega
    · by_cases h2 : r.status = "warning"
      · simp [h1, h2]; omega
      · simp [h1, h2]; omega

/-! ### Lemmas for counting a full-capacity run -/

theorem listHasPrefix_append_self : ∀ (l r : List Char), listHasPrefix l (l ++ r) = true := by
  intro l r
  induction l with
  | nil => rfl
  | cons a as ih =>
    show (a == a && listHasPrefix as (as ++ r)) = true
    simp [ih]

/-- `s ++ t` starts with `s`. -/
theorem pyStartsWith_append_left (s t : String) : pyStartsWith (s ++ t) s = true :=
  listHasPrefix_append_self s.data t.data

/-- The dynamic-route regex cannot match a string with no `'['`. -/
theorem hasDynList_no_bracket : ∀ (l : List Char), '[' ∉ l → hasDynList l = false := by
  intro l
  induction l with
  | nil => intro _; rfl
  | cons c rest ih =>
    intro h
    show (dynAt (c :: rest) || hasDynList rest) = false
    rw [ih (fun hm => h (List.mem_cons_of_mem _ hm))]
    cases rest with
    | nil => rfl
    | cons c2 r =>
      rw [dynAt_of_second_ne c c2 r (fun he => h (by simp [he]))]
      rfl

/-- A page with no anchors leaves the pending queue unchanged. -/
theorem test_page_pending_nil (w : World) (v p : List String) (url : String)
    (h : pageHrefs w url = []) : (test_page w v p url).2 = p := by
  cases hw : w url with
  | navError m o t st => simp [test_page, hw]
  | loaded d =>
    have hh : d.hrefs = [] := by simpa [pageHrefs, hw] using h
    simp [test_page, hw, discoverLinks, hh]

/-- On a loaded page, the new pending queue is the one link discovery
computes. -/
theorem test_page_pending_discover (w : World) (v p : List String) (url : String)
    (d : PageData) (hw : w url = .loaded d) :
    (test_page w v p url).2 = (discoverLinks v p d.hrefs).pending := by
  simp [test_page, hw]

/-- A fresh URL with the base prefix survives the skip scan. -/
theorem dropSkipped_keep (v : List String) (url : String) (rest : List String)
    (hv : url ∉ v) (hs : pyStartsWith url BASE_URL = true) :
    dropSkipped v (url :: rest) = url :: rest := by
  show (if v.contains url || !pyStartsWith url BASE_URL
        then dropSkipped v rest else url :: rest) = url :: rest
  simp [hv, hs]

/-- Link discovery appends exactly the joins of a list of well-formed,
pairwise-distinct, fresh absolute-path hrefs. -/
theorem discoverFold_append (v : List String) :
    ∀ (hs : List String) (links p : List String),
      (∀ h ∈ hs, hrefSkipped h = false ∧ pyStartsWith h "/" = true ∧
        pyStartsWith h "//" = false ∧ hasDynSeg h = false ∧ (BASE_URL ++ h) ∉ v) →
      (hs.map (fun h => BASE_URL ++ h)).Nodup →
      (∀ h ∈ hs, (BASE_URL ++ h) ∉ p) →
      (hs.foldl (discoverStep v) (DiscoverAcc.mk links p)).pending
        = p ++ hs.map (fun h => BASE_URL ++ h) := by
  intro hs
  induction hs with
  | nil => intro links p _ _ _; simp
  | cons h hs ih =>
    intro links p hcond hnd hp
    obtain ⟨hsk, hs1, hs2, hdy, hv⟩ := hcond h (by simp)
    have hstep : discoverStep v (DiscoverAcc.mk links p) h =
        DiscoverAcc.mk (links ++ [BASE_URL ++ h]) (p ++ [BASE_URL ++ h]) := by
      have hres : resolveHref h = some (BASE_URL ++ h) := by
        simp [resolveHref, hs1, urljoin_base, hs2]
      simp [discoverStep, hsk, hres, hdy, hv, hp h (by simp)]
    show ((h :: hs).foldl (discoverStep v) (DiscoverAcc.mk links p)).pending = _
    rw [List.foldl_cons, hstep]
    rw [ih (links ++ [BASE_URL ++ h]) (p ++ [BASE_URL ++ h])
      (fun h' hm => hcond h' (List.mem_cons_of_mem _ hm))
      ((List.nodup_cons.mp hnd).2) ?fresh]
    · simp
    case fresh =>
      intro h' hm hmem
      rcases List.mem_append.mp hmem with h1 | h1
      · exact hp h' (List.mem_cons_of_mem _ hm) h1
      · have he : (BASE_URL ++ h') = (BASE_URL ++ h) := by simpa using h1
        exact (List.nodup_cons.mp hnd).1
          (by simpa [he] using List.mem_map_of_mem (fun x => BASE_URL ++ x) hm)

/-- `discoverFold_append` phrased on `discoverLinks`. -/
theorem discoverLinks_append (v p : List String) (hs : List String)
    (h1 : ∀ h ∈ hs, hrefSkipped h = false ∧ pyStartsWith h "/" = true ∧
      pyStartsWith h "//" = false ∧ hasDynSeg h = false ∧ (BASE_URL ++ h) ∉ v)
    (h2 : (hs.map (fun h => BASE_URL ++ h)).Nodup)
    (h3 : ∀ h ∈ hs, (BASE_URL ++ h) ∉ p) :
    (discoverLinks v p hs).pending = p ++ hs.map (fun h => BASE_URL ++ h) :=
  discoverFold_append v hs [] p h1 h2 h3

/-- When the frontier starts with at least `budget` pairwise-distinct,
fresh, base-prefixed URLs whose pages have no anchors, the capped loop
tests exactly `budget` pages. -/
theorem crawlLoop_full (w : World) :
    ∀ (budget : Nat) (good junk : List String) (s : CrawlState),
      s.pending = good ++ junk →
      budget ≤ good.length →
      good.Nodup →
      (∀ u ∈ good, u ∉ s.visited ∧ pyStartsWith u BASE_URL = true ∧ pageHrefs w u = []) →
      (crawlLoop w budget s).results.length = s.results.length + budget := by
  intro budget
  induction budget with
  | zero => intro good junk s _ _ _ _; simp [crawlLoop]
  | succ b ih =>
    intro good junk s hp hb hnd hcond
    cases good with
    | nil => exact absurd hb (by simp)
    | cons g good' =>
      obtain ⟨hgv, hgs, hgl⟩ := hcond g (by simp)
      have hd : dropSkipped s.visited s.pending = g :: (good' ++ junk) := by
        rw [hp, List.cons_append]
        exact dropSkipped_keep s.visited g (good' ++ junk) hgv hgs
      rw [crawlLoop, hd]
      dsimp only
      rw [test_page_pending_nil w s.visited (good' ++ junk) g hgl,
        setAdd_of_not_mem hgv]
      rw [ih good' junk _ rfl (Nat.succ_le_succ_iff.mp hb)
        ((List.nodup_cons.mp hnd).2) ?cond]
      · simp [Nat.add_assoc, Nat.add_comm 1 b]
      case cond =>
        intro u hu
        obtain ⟨h1, h2, h3⟩ := hcond u (List.mem_cons_of_mem _ hu)
        refine ⟨?_, h2, h3⟩
        intro hmem
        rcases List.mem_append.mp hmem with hm | hm
        · exact h1 hm
        · have : u = g := by simpa using hm
          exact (List.nodup_cons.mp hnd).1 (this ▸ hu)

theorem chainUrl_length (k : Nat) : (chainUrl k).length = 23 + k := by
  show (chainUrl k).data.length = 23 + k
  have hd : (chainUrl k).data = BASE_URL.data ++ ('/' :: 'c' :: List.replicate k 'a') := rfl
  have hb : BASE_URL.data.length = 21 := rfl
  rw [hd]
  simp [List.length_append, hb]
  omega

theorem chainUrl_injective : Function.Injective chainUrl := by
  intro i j h
  have hl := congrArg String.length h
  rw [chainUrl_length, chainUrl_length] at hl
  omega

theorem chainUrls_nodup : chainUrls.Nodup :=
  List.Nodup.map chainUrl_injective (List.nodup_range 101)

theorem chainUrl_ne_pubUrl1 (i : Nat) : chainUrl i ≠ pubUrl1 := by
  intro h
  have hd := congrArg String.data h
  have h1 : (chainUrl i).data = BASE_URL.data ++ ('/' :: 'c' :: List.replicate i 'a') := rfl
  have h2 : pubUrl1.data = BASE_URL.data ++ ('/' :: 's' :: "ign-in".data) := rfl
  rw [h1, h2] at hd
  have h3 := List.append_cancel_left hd
  injection h3 with _ h4
  injection h4 with h5 _
  exact absurd h5 (by decide)

theorem chainUrl_ne_pubUrl2 (i : Nat) : chainUrl i ≠ pubUrl2 := by
  intro h
  have hd := congrArg String.data h
  have h1 : (chainUrl i).data = BASE_URL.data ++ ('/' :: 'c' :: List.replicate i 'a') := rfl
  have h2 : pubUrl2.data = BASE_URL.data ++ ('/' :: 'd' :: "sar/demo".data) := rfl
  rw [h1, h2] at hd
  have h3 := List.append_cancel_left hd
  injection h3 with _ h4
  injection h4 with h5 _
  exact absurd h5 (by decide)

/-- Every chain href passes the discovery filters. -/
theorem chainHrefs_wf : ∀ h ∈ chainHrefs, hrefSkipped h = false ∧
    pyStartsWith h "/" = true ∧ pyStartsWith h "//" = false ∧
    hasDynSeg h = false ∧ (BASE_URL ++ h) ∉ ([] : List String) := by
  intro h hm
  rcases List.mem_map.mp hm with ⟨i, _, rfl⟩
  refine ⟨rfl, rfl, rfl, ?_, by simp⟩
  apply hasDynList_no_bracket
  have hd : ("/c" ++ String.mk (List.replicate i 'a')).data
      = '/' :: 'c' :: List.replicate i 'a' := rfl
  rw [hd]
  intro hb
  rcases List.mem_cons.mp hb with h1 | h1
  · exact absurd h1 (by decide)
  rcases List.mem_cons.mp h1 with h2 | h2
  · exact absurd h2 (by decide)
  · exact absurd (List.mem_replicate.mp h2).2 (by decide)

/-- Static-route seeding appends the join of every not-yet-visited seed
route to the pending queue. -/
theorem seedFold_pending :
    ∀ (routes : List String) (s : CrawlState),
      (∀ r ∈ routes, (BASE_URL ++ r) ∉ s.visited) →
      (routes.foldl
        (fun s route =>
          let url := BASE_URL ++ route
          if s.visited.contains url then s
          else { s with pending := s.pending ++ [url] }) s).pending
        = s.pending ++ routes.map (fun r => BASE_URL ++ r) := by
  intro routes
  induction routes with
  | nil => intro s _; simp
  | cons r rs ih =>
    intro s hcond
    have hv : (BASE_URL ++ r) ∉ s.visited := hcond r (by simp)
    have hred :
        (if s.visited.contains (BASE_URL ++ r) = true then s
          else { s with pending := s.pending ++ [BASE_URL ++ r] })
        = { s with pending := s.pending ++ [BASE_URL ++ r] } := by
      rw [contains_false_of_not_mem hv]
      simp
    rw [List.foldl_cons]
    dsimp only
    rw [hred]
    rw [ih ({ s with pending := s.pending ++ [BASE_URL ++ r] })
      (fun r' hm => hcond r' (List.mem_cons_of_mem _ hm))]
    simp

/-- The anchors a world shows on a loaded page. -/
theorem pageHrefs_loaded (w : World) (url : String) (d : PageData)
    (h : w url = .loaded d) : pageHrefs w url = d.hrefs := by
  simp [pageHrefs, h]

/-- The pending queue after the public phase, when the second public page
has no anchors. -/
theorem publicPhase_pending (w : World) (h2 : pageHrefs w pubUrl2 = []) :
    (publicPhase w initState).pending = (test_page w [] [] pubUrl1).2 := by
  rw [publicPhase_eq]
  dsimp only
  rw [test_page_pending_nil w _ _ pubUrl2 h2]

/-- The pending queue after static seeding, when no seed route has been
visited. -/
theorem seedStatic_pending_of (s : CrawlState)
    (h : ∀ r ∈ STATIC_ROUTES, (BASE_URL ++ r) ∉ s.visited) :
    (seedStatic s).pending = s.pending ++ staticUrls := by
  unfold seedStatic
  rw [seedFold_pending STATIC_ROUTES s h]
  simp only [staticUrls]

/-- Dynamic-route harvesting is the identity when no candidates exist. -/
theorem test_dynamic_routes_nil (dw : DynWorld) (s : CrawlState)
    (h : dynCandidates dw = []) : test_dynamic_routes dw s = s := by
  unfold test_dynamic_routes
  rw [h, List.foldl_nil]

/-- The shape of a run whose authentication succeeds. -/
theorem run_auth_true (rw : RunWorld) (h : authenticate rw.auth = true) :
    run rw = crawlLoop rw.pages MAX_PAGES
      (test_dynamic_routes rw.dyn (seedStatic (publicPhase rw.pages initState))) := by
  simp [run, h]

/-! ### Claim theorems -/

/-- C1: For every tested page the recorded status follows the first-match
priority: `"error"` exactly when an error-indicator phrase occurs in the
rendered body text, the error-overlay marker is present, the HTTP status
is ≥ 400, or navigation threw; otherwise `"warning"` exactly when at
least one console message of type `error` was logged; otherwise
`"success"`. -/
theorem c1_status_priority (w : World) (v p : List String) (url : String) :
    ((test_page w v p url).1.status = "error" ↔ errorCondB w url = true) ∧
    ((test_page w v p url).1.status = "warning" ↔
      (errorCondB w url = false ∧ warnCondB w url = true)) ∧
    ((test_page w v p url).1.status = "success" ↔
      (errorCondB w url = false ∧ warnCondB w url = false)) := by
  cases hw : w url with
  | navError m o t st =>
    simp [test_page, errorCondB, warnCondB, hw]
  | loaded d =>
    simp only [test_page, errorCondB, warnCondB, hw]
    by_cases h1 :
      ((hasIndicator d || d.overlayCount != 0) || decide (400 ≤ pyOr d.responseStatus 200)) = true
    · simp [h1]
    · have h1' :
        ((hasIndicator d || d.overlayCount != 0) || decide (400 ≤ pyOr d.responseStatus 200)) = false :=
        Bool.not_eq_true _ ▸ h1
      by_cases h2 : (!(consoleOfType "error" d.consoleLogs).isEmpty) = true
      · simp [h1', h2]
      · have h2' : (!(consoleOfType "error" d.consoleLogs).isEmpty) = false :=
          Bool.not_eq_true _ ▸ h2
        simp [h1', h2']

set_option maxHeartbeats 2000000 in
/-- C2 counterexample: the claim says no run tests more than `MAX_PAGES`
pages, but the two public routes are tested before the capped loop: in the
`capRun` world (101 distinct in-origin links on the sign-in page) the
report contains 2 + `MAX_PAGES` = 102 results, each produced by one
`test_page` call. -/
theorem c2_counterexample : MAX_PAGES < (run capRun).results.length := by
  have hw1 : capRun.pages pubUrl1 = PageLoad.loaded (pageWithHrefs chainHrefs) := by
    show (if pubUrl1 = BASE_URL ++ "/sign-in" then PageLoad.loaded (pageWithHrefs chainHrefs)
          else PageLoad.loaded emptyPage) = PageLoad.loaded (pageWithHrefs chainHrefs)
    exact if_pos rfl
  have hne2 : ¬(pubUrl2 = BASE_URL ++ "/sign-in") := by decide
  have hw2l : capRun.pages pubUrl2 = PageLoad.loaded emptyPage := by
    show (if pubUrl2 = BASE_URL ++ "/sign-in" then PageLoad.loaded (pageWithHrefs chainHrefs)
          else PageLoad.loaded emptyPage) = PageLoad.loaded emptyPage
    exact if_neg hne2
  have hw2 : pageHrefs capRun.pages pubUrl2 = [] := by
    rw [pageHrefs_loaded capRun.pages pubUrl2 emptyPage hw2l]
    rfl
  have hmapchain : chainHrefs.map (fun h => BASE_URL ++ h) = chainUrls := by
    simp only [chainHrefs, chainUrls, List.map_map]
    rfl
  have e1 : (test_page capRun.pages [] [] pubUrl1).2 = chainUrls := by
    rw [test_page_pending_discover capRun.pages [] [] pubUrl1 _ hw1]
    rw [show (pageWithHrefs chainHrefs).hrefs = chainHrefs from rfl]
    rw [discoverLinks_append [] [] chainHrefs chainHrefs_wf
      (by rw [hmapchain]; exact chainUrls_nodup) (fun h _ => by simp), hmapchain]
    simp
  have e2 : (publicPhase capRun.pages initState).pending = chainUrls := by
    rw [publicPhase_pending capRun.pages hw2]
    exact e1
  have evis0 : (publicPhase capRun.pages initState).visited = [pubUrl1, pubUrl2] := by
    rw [publicPhase_eq]
  have hst : ∀ r ∈ STATIC_ROUTES,
      (BASE_URL ++ r) ∉ (publicPhase capRun.pages initState).visited := by
    rw [evis0]
    decide
  have e3 : (seedStatic (publicPhase capRun.pages initState)).pending
      = chainUrls ++ staticUrls := by
    rw [seedStatic_pending_of _ hst, e2]
  have e4 : test_dynamic_routes capRun.dyn (seedStatic (publicPhase capRun.pages initState))
      = seedStatic (publicPhase capRun.pages initState) :=
    test_dynamic_routes_nil capRun.dyn _ rfl
  have evis : (seedStatic (publicPhase capRun.pages initState)).visited
      = [pubUrl1, pubUrl2] := by
    rw [(seedStatic_state _).2, evis0]
  have hgood : ∀ u ∈ chainUrls,
      u ∉ (seedStatic (publicPhase capRun.pages initState)).visited ∧
      pyStartsWith u BASE_URL = true ∧ pageHrefs capRun.pages u = [] := by
    intro u hu
    rcases List.mem_map.mp hu with ⟨i, _, rfl⟩
    refine ⟨?_, pyStartsWith_append_left BASE_URL _, ?_⟩
    · rw [evis]
      intro hm
      rcases List.mem_cons.mp hm with h1 | h1
      · exact chainUrl_ne_pubUrl1 i h1
      · exact chainUrl_ne_pubUrl2 i (by simpa using h1)
    · have hne : ¬(chainUrl i = BASE_URL ++ "/sign-in") := chainUrl_ne_pubUrl1 i
      have hwu : capRun.pages (chainUrl i) = PageLoad.loaded emptyPage := by
        show (if chainUrl i = BASE_URL ++ "/sign-in" then
                PageLoad.loaded (pageWithHrefs chainHrefs)
              else PageLoad.loaded emptyPage) = PageLoad.loaded emptyPage
        exact if_neg hne
      rw [pageHrefs_loaded capRun.pages (chainUrl i) emptyPage hwu]
      rfl
  have hlen : MAX_PAGES ≤ chainUrls.length := by
    simp [chainUrls, MAX_PAGES]
  have hloop := crawlLoop_full capRun.pages MAX_PAGES chainUrls staticUrls
    (test_dynamic_routes capRun.dyn (seedStatic (publicPhase capRun.pages initState)))
    (by rw [e4, e3]) hlen chainUrls_nodup (by rw [e4]; exact hgood)
  have hres2 : (test_dynamic_routes capRun.dyn
      (seedStatic (publicPhase capRun.pages initState))).results.length = 2 := by
    rw [e4, (seedStatic_state _).1, publicPhase_results_length]
  have ha : authenticate capRun.auth = true := by decide
  rw [run_auth_true capRun ha, hloop, hres2]
  omega

/-- C2 (amended): the capped traversal loop tests at most `MAX_PAGES`
pages, and a full run tests at most `MAX_PAGES` plus the public seed
routes tested before the loop. -/
theorem c2_page_cap (rw : RunWorld) :
    (run rw).results.length ≤ PUBLIC_ROUTES.length + MAX_PAGES ∧
    (∀ (b : Nat) (s : CrawlState),
      (crawlLoop rw.pages b s).results.length ≤ s.results.length + b) :=
  ⟨run_results_length rw, fun b s => crawlLoop_results_length rw.pages b s⟩

/-- C3 counterexample: `http://localhost:30012/evil` is outside the base
origin (different port) yet has `BASE_URL` as a string prefix, so the run
against `evilRun` tests it and appends it to the report. -/
theorem c3_counterexample :
    evilUrl ∈ (run evilRun).results.map PageResult.url ∧ sameOrigin evilUrl = false := by
  decide

/-- C3 (amended): the crawl loop confines itself to URLs that have
`BASE_URL` as a string prefix (not to the base origin proper): every
reported URL has the base prefix, a dequeued URL without the prefix is
skipped without being tested, and link discovery enqueues only joined
absolute paths or hrefs that start with `BASE_URL`. -/
theorem c3_prefix_confinement :
    (∀ (rw : RunWorld), ∀ r ∈ (run rw).results, pyStartsWith r.url BASE_URL = true) ∧
    (∀ (w : World) (b : Nat) (v rest : List String) (res : List PageResult) (url : String),
      pyStartsWith url BASE_URL = false →
      crawlLoop w (b + 1) ({ visited := v, pending := url :: rest, results := res }) =
        crawlLoop w (b + 1) ({ visited := v, pending := rest, results := res })) ∧
    (∀ (w : World) (v p : List String) (url u : String),
      u ∈ (test_page w v p url).2 →
      u ∈ p ∨ ∃ href ∈ pageHrefs w url,
        (pyStartsWith href "/" = true ∧ u = urljoin_base href) ∨
        (pyStartsWith href "/" = false ∧ pyStartsWith href BASE_URL = true ∧ u = href)) := by
  refine ⟨fun rw r hr => (run_inv rw).1 r hr, ?_, ?_⟩
  · intro w b v rest res url h
    have hd : dropSkipped v (url :: rest) = dropSkipped v rest := by
      show (if v.contains url || !pyStartsWith url BASE_URL
            then dropSkipped v rest else url :: rest) = dropSkipped v rest
      simp [h]
    simp only [crawlLoop]
    rw [hd]
  · intro w v p url u hu
    rcases test_page_pending_mem w v p url u hu with h | ⟨href, hmem, hres, _, _, _⟩
    · exact Or.inl h
    · exact Or.inr ⟨href, hmem, resolveHref_cases href u hres⟩

/-- C3 witness: applying the enqueue characterisation at a concrete page
with one link. -/
theorem c3_witness :
    (BASE_URL ++ "/x") ∈ (test_page (flatWorld ["/x"]) [] [] pubUrl1).2 ∧
    ((BASE_URL ++ "/x") ∈ ([] : List String) ∨
      ∃ href ∈ pageHrefs (flatWorld ["/x"]) pubUrl1,
        (pyStartsWith href "/" = true ∧ BASE_URL ++ "/x" = urljoin_base href) ∨
        (pyStartsWith href "/" = false ∧ pyStartsWith href BASE_URL = true ∧
          BASE_URL ++ "/x" = href)) :=
  ⟨by decide,
   c3_prefix_confinement.2.2 (flatWorld ["/x"]) [] [] pubUrl1 (BASE_URL ++ "/x") (by decide)⟩

/-- C4 counterexample: the pending queue holds `/privacy` twice inside the
run against `dupWorld` (which authenticates successfully): it is
discovered as a link while testing the public sign-in page, and the
static-route seeding appends it again, checking only the visited set. -/
theorem c4_pending_duplicate :
    (seedStatic (publicPhase dupWorld initState)).pending.count (BASE_URL ++ "/privacy") = 2 ∧
    authenticate authOk = true := by
  decide

/-- C4 (amended): no URL is ever tested twice — every URL appears at most
once among the reported results — and link discovery never enqueues a URL
that is already visited or already pending; the pending queue itself can
however briefly hold a duplicate (see the counterexample). -/
theorem c4_no_double_testing :
    (∀ (rw : RunWorld), ((run rw).results.map PageResult.url).Nodup) ∧
    (∀ (w : World) (v p : List String) (url u : String),
      u ∈ (test_page w v p url).2 → u ∈ p ∨ (u ∉ v ∧ u ∉ p)) := by
  refine ⟨fun rw => (run_inv rw).2.1, ?_⟩
  intro w v p url u hu
  rcases test_page_pending_mem w v p url u hu with h | ⟨_, _, _, _, hv, hp⟩
  · exact Or.inl h
  · exact Or.inr ⟨hv, hp⟩

/-- C4 witness: applying the enqueue-discipline part at a concrete page. -/
theorem c4_witness :
    (BASE_URL ++ "/x") ∈ (test_page (flatWorld ["/x"]) [] [] pubUrl1).2 ∧
    ((BASE_URL ++ "/x") ∈ ([] : List String) ∨
      ((BASE_URL ++ "/x") ∉ ([] : List String) ∧ (BASE_URL ++ "/x") ∉ ([] : List String))) :=
  ⟨by decide,
   c4_no_double_testing.2 (flatWorld ["/x"]) [] [] pubUrl1 (BASE_URL ++ "/x") (by decide)⟩

/-- A pending URL with an unresolved route parameter, used to witness C5. -/
def dynPendingUrl : String := BASE_URL ++ "/items/[id]"

/-- C5: a URL whose path contains a bracketed template segment (so that
the string matches the dynamic-route regex `/\[.*\]`) is never added to
the pending queue by link discovery: if such a URL is pending after
`test_page`, it was already pending before.  (The regex is checked on the
href; joining to the base URL neither creates nor destroys matches.) -/
theorem c5_dynamic_not_enqueued (w : World) (v p : List String) (url u : String)
    (hdyn : hasDynSeg u = true) (hu : u ∈ (test_page w v p url).2) : u ∈ p := by
  rcases test_page_pending_mem w v p url u hu with h | ⟨href, _, hres, hdf, _, _⟩
  · exact h
  · rw [hasDynSeg_resolve href u hres, hdf] at hdyn
    cases hdyn

/-- C5 witness: a dynamic-segment URL found pending after a page test was
pending beforehand. -/
theorem c5_witness :
    hasDynSeg dynPendingUrl = true ∧
    dynPendingUrl ∈ (test_page (flatWorld ["/ok"]) [] [dynPendingUrl] pubUrl1).2 ∧
    dynPendingUrl ∈ [dynPendingUrl] :=
  ⟨by decide, by decide,
   c5_dynamic_not_enqueued (flatWorld ["/ok"]) [] [dynPendingUrl] pubUrl1 dynPendingUrl
     (by decide) (by decide)⟩

/-- C6: after report compilation the page total is exactly the sum of the
passed, warning and failed buckets — each result falls into exactly one
bucket of the `if`/`elif`/`else` — for every possible results list. -/
theorem c6_report_partition (results : List PageResult) :
    (compileReport results).total_pages =
      (compileReport results).pages_passed +
      (compileReport results).pages_with_warnings +
      (compileReport results).pages_failed :=
  compileFold_partition results {} rfl

/-- C7 counterexample: with the browser still on the sign-in page but with
`/privacy` inside the query string, `authenticate` reports success even
though the resulting URL is still the sign-in page. -/
theorem c7_counterexample :
    authenticate authStuck = true ∧ onSignInPage authStuck.urlAfter = true := by
  decide

/-- C7 (amended): the authentication gate reports success exactly when the
dev email field and the dev sign-in button are visible, no step threw, and
the resulting URL contains `/privacy` or does not contain `/sign-in`;
in every other case it reports failure. -/
theorem c7_auth_condition (a : AuthWorld) :
    authenticate a = true ↔
      (a.throws = false ∧ a.emailVisible = true ∧ a.buttonVisible = true ∧
        (strIn "/privacy" a.urlAfter = true ∨ strIn "/sign-in" a.urlAfter = false)) := by
  unfold authenticate
  rcases a with ⟨th, em, bu, url⟩
  cases th <;> cases em <;> cases bu <;>
    cases h1 : strIn "/privacy" url <;> cases h2 : strIn "/sign-in" url <;>
      simp [h1, h2]

/-- C8: a navigation exception is caught inside the page test: the loop
step on a fresh in-prefix URL whose navigation throws records a result
with status `"error"` and the exception text, and continues the crawl
with the remaining frontier exactly as for any tested page. -/
theorem c8_nav_exception_isolated (w : World) (b : Nat) (v rest : List String)
    (res : List PageResult) (url msg : String) (obs : Option Nat) (t st : Nat)
    (hw : w url = .navError msg obs t st) (hv : url ∉ v)
    (hs : pyStartsWith url BASE_URL = true) :
    crawlLoop w (b + 1) (CrawlState.mk v (url :: rest) res) =
      crawlLoop w b
        (CrawlState.mk (v ++ [url]) rest (res ++ [(test_page w v rest url).1])) ∧
    (test_page w v rest url).1.status = "error" ∧
    (test_page w v rest url).1.error_message = some msg := by
  have hd : dropSkipped v (url :: rest) = url :: rest := by
    show (if v.contains url || !pyStartsWith url BASE_URL
          then dropSkipped v rest else url :: rest) = url :: rest
    simp [hv, hs]
  refine ⟨?_, by simp [test_page, hw], by simp [test_page, hw]⟩
  simp only [crawlLoop]
  rw [hd]
  dsimp only
  rw [setAdd_of_not_mem hv]
  have hp : (test_page w v rest url).2 = rest := by simp [test_page, hw]
  rw [hp]

/-- C8 witness: the loop step on a throwing navigation at concrete
inputs. -/
theorem c8_witness :
    crawlLoop crashWorld 1 (CrawlState.mk [] [pubUrl1, pubUrl2] []) =
      crawlLoop crashWorld 0
        (CrawlState.mk ([] ++ [pubUrl1]) [pubUrl2]
          ([] ++ [(test_page crashWorld [] [pubUrl2] pubUrl1).1])) ∧
    (test_page crashWorld [] [pubUrl2] pubUrl1).1.status = "error" ∧
    (test_page crashWorld [] [pubUrl2] pubUrl1).1.error_message =
      some "Timeout 30000ms exceeded." :=
  c8_nav_exception_isolated crashWorld 0 [] [pubUrl2] [] pubUrl1
    "Timeout 30000ms exceeded." (some 500) 45 7 rfl (by simp) (by decide)

/-- C9: when navigation succeeds but no document-response status was
captured (`None`) or a falsy `0` was captured, the recorded `http_status`
defaults to 200 rather than being absent. -/
theorem c9_http_status_default (w : World) (v p : List String) (url : String)
    (d : PageData) (hw : w url = .loaded d)
    (h0 : d.responseStatus = none ∨ d.responseStatus = some 0) :
    (test_page w v p url).1.http_status = some 200 := by
  rcases h0 with h | h <;> simp [test_page, hw, pyOr, h]

/-- C9 witness: the default at a concrete page with no captured status. -/
theorem c9_witness : (test_page noStatusWorld [] [] pubUrl1).1.http_status = some 200 :=
  c9_http_status_default noStatusWorld [] [] pubUrl1
    ({ emptyPage with responseStatus := none }) rfl (Or.inl rfl)

/-- C10: on a navigation exception the result keeps the `PageResult`
defaults for all inspection fields — `http_status` stays `None` even
though a document response status had been observed before the exception,
`links_found` stays empty, `buttons_found` and `forms_found` stay 0, no
console lists are filled — and only status, error message, load time and
the screenshot path are set; the pending queue is left untouched. -/
theorem c10_nav_error_defaults (w : World) (v p : List String) (url msg : String)
    (obs : Option Nat) (t st : Nat) (hw : w url = .navError msg obs t st) :
    (test_page w v p url).1.status = "error" ∧
    (test_page w v p url).1.error_message = some msg ∧
    (test_page w v p url).1.http_status = none ∧
    (test_page w v p url).1.links_found = [] ∧
    (test_page w v p url).1.buttons_found = 0 ∧
    (test_page w v p url).1.forms_found = 0 ∧
    (test_page w v p url).1.console_errors = [] ∧
    (test_page w v p url).1.console_warnings = [] ∧
    (test_page w v p url).1.load_time_ms = t ∧
    (test_page w v p url).1.screenshot_path = some (screenshotFile url "error" st) ∧
    (test_page w v p url).2 = p := by
  simp [test_page, hw]

/-- C10 witness: the error-path defaults at a concrete navigation that
throws after a 500 document response was observed. -/
theorem c10_witness :
    (test_page crashWorld [] [pubUrl2] pubUrl1).1.status = "error" ∧
    (test_page crashWorld [] [pubUrl2] pubUrl1).1.error_message =
      some "Timeout 30000ms exceeded." ∧
    (test_page crashWorld [] [pubUrl2] pubUrl1).1.http_status = none ∧
    (test_page crashWorld [] [pubUrl2] pubUrl1).1.links_found = [] ∧
    (test_page crashWorld [] [pubUrl2] pubUrl1).1.buttons_found = 0 ∧
    (test_page crashWorld [] [pubUrl2] pubUrl1).1.forms_found = 0 ∧
    (test_page crashWorld [] [pubUrl2] pubUrl1).1.console_errors = [] ∧
    (test_page crashWorld [] [pubUrl2] pubUrl1).1.console_warnings = [] ∧
    (test_page crashWorld [] [pubUrl2] pubUrl1).1.load_time_ms = 45 ∧
    (test_page crashWorld [] [pubUrl2] pubUrl1).1.screenshot_path =
      some (screenshotFile pubUrl1 "error" 7) ∧
    (test_page crashWorld [] [pubUrl2] pubUrl1).2 = [pubUrl2] :=
  c10_nav_error_defaults crashWorld [] [pubUrl2] pubUrl1
    "Timeout 30000ms exceeded." (some 500) 45 7 rfl

end PrivacySuite
